import Mathlib

/-!
Verification of the simpleforce bulk-job module (`bulk.go`): the job state
model, the Salesforce timestamp codec, the status-polling loop `Wait`, the
result-set fetcher `GetResultSet` and the job deletion `Delete`.

Each Go function is shallowly embedded as an executable Lean definition.
The HTTP transport is abstracted: request construction is modelled as a
value of type `HttpRequest`, and response processing is a pure function of
an `HttpResponse` value.
-/

deriving instance DecidableEq for Except

namespace Simpleforce

/-! ### Job state model (`bulk.go` lines 15-37) -/

/-- Model of Go `type JobStateEnum string`: a distinct string type. -/
structure JobStateEnum where
  val : String
deriving DecidableEq, Repr

def UploadComplete : JobStateEnum := ⟨"UploadComplete"⟩
def InProgress : JobStateEnum := ⟨"InProgress"⟩
def Aborted : JobStateEnum := ⟨"Aborted"⟩
def JobComplete : JobStateEnum := ⟨"JobComplete"⟩
def Failed : JobStateEnum := ⟨"Failed"⟩

/-- Model of `func (j JobStateEnum) IsFinished() bool` (`bulk.go` 25-27). -/
def JobStateEnum.IsFinished (j : JobStateEnum) : Bool :=
  j == JobComplete || j == Failed || j == Aborted

/-- Model of `func (j JobStateEnum) ToError() error` (`bulk.go` 29-37).
A Go `error` is modelled as `Option String` (`none` is the nil error,
`some msg` an error with message `msg`). -/
def JobStateEnum.ToError (j : JobStateEnum) : Option String :=
  if j = Aborted then some "job aborted"
  else if j = Failed then some "job failed"
  else none

/-! ### Go `time.Time` and the calendar arithmetic behind `time.Date`.

`bulk.go` parses timestamps with `time.Parse` and the fixed layout
`"2006-01-02T15:04:05.000-0700"`.  We model an absolute instant the way Go
does internally: seconds since January 1 of year 1, 00:00:00 UTC, plus a
nanosecond part.  The zero value of `GoTime` is the zero value of
`time.Time`. -/

structure GoTime where
  sec : Int
  nsec : Int
deriving DecidableEq, Repr

def GoTime.zeroValue : GoTime := ⟨0, 0⟩

def isLeapYear (y : Int) : Bool :=
  y % 4 == 0 && (y % 100 != 0 || y % 400 == 0)

/-- Cumulative days in a common year before month `m` (1-based). -/
def daysBeforeMonth (m : Nat) : Nat :=
  [0, 0, 31, 59, 90, 120, 151, 181, 212, 243, 273, 304, 334].getD m 365

/-- Number of days of month `m` in year `y`, as Go `daysIn`. -/
def daysInMonth (y : Int) (m : Nat) : Nat :=
  if m = 2 then (if isLeapYear y then 29 else 28)
  else [0, 31, 0, 31, 30, 31, 30, 31, 31, 30, 31, 30, 31].getD m 0

/-- Days from January 1 of year 1 to January 1 of year `y` (proleptic
Gregorian, floor division so that years before 1 also work). -/
def daysBeforeYear (y : Int) : Int :=
  365 * (y - 1) + Int.fdiv (y - 1) 4 - Int.fdiv (y - 1) 100 + Int.fdiv (y - 1) 400

/-- Days from January 1 of year 1 to the civil date `y-m-d`. -/
def dateToAbsDays (y : Int) (m d : Nat) : Int :=
  daysBeforeYear y
    + (daysBeforeMonth m + (if isLeapYear y && decide (2 < m) then 1 else 0) : Nat)
    + ((d : Int) - 1)

/-- The instant denoted by civil fields `y-m-d h:mi:s` with `nsec`
nanoseconds in a fixed zone `zoneOffsetSec` seconds east of UTC; this is
Go `time.Date(y, m, d, h, mi, s, nsec, FixedZone(zoneOffsetSec))`. -/
def mkGoTime (y : Int) (m d h mi s : Nat) (nsec : Int) (zoneOffsetSec : Int) : GoTime :=
  ⟨dateToAbsDays y m d * 86400 + h * 3600 + mi * 60 + s - zoneOffsetSec, nsec⟩

/-! ### The timestamp parser

Model of Go `time.Parse` specialised to the one layout `bulk.go` uses,
`"2006-01-02T15:04:05.000-0700"` (literal double quotes, fixed-width
numeric fields, a 3-digit fractional second, and the numeric timezone
element `-0700`, which accepts a `+`/`-` sign followed by four digits and
does NOT accept the ISO `Z` / colon forms). -/

/-- Errors of `time.Parse`: element mismatches (Go "cannot parse x as y"),
range errors (Go "out of range"), and trailing input (Go "extra text"). -/
inductive TimeParseError where
  | badData (layout value : String) : TimeParseError
  | outOfRange (element : String) : TimeParseError
  | extraText (value : String) : TimeParseError
deriving DecidableEq, Repr

def digitVal (c : Char) : Option Nat :=
  if c.isDigit then some (c.toNat - 48) else none

def expectChar (c : Char) : List Char → Except TimeParseError (List Char)
  | [] => .error (.badData (String.mk [c]) "")
  | x :: rest =>
    if x = c then .ok rest else .error (.badData (String.mk [c]) (String.mk (x :: rest)))

/-- A fixed two-digit numeric element (Go `getnum` with `fixed = true`). -/
def num2 : List Char → Except TimeParseError (Nat × List Char)
  | c1 :: c2 :: rest =>
    match digitVal c1, digitVal c2 with
    | some d1, some d2 => .ok (10 * d1 + d2, rest)
    | _, _ => .error (.badData "2-digit number" (String.mk (c1 :: c2 :: rest)))
  | v => .error (.badData "2-digit number" (String.mk v))

/-- A one-or-two-digit numeric element (Go `getnum` with `fixed = false`),
used for the hour element `15`. -/
def num12 : List Char → Except TimeParseError (Nat × List Char)
  | [] => .error (.badData "number" "")
  | [c1] =>
    match digitVal c1 with
    | some d1 => .ok (d1, [])
    | none => .error (.badData "number" (String.mk [c1]))
  | c1 :: c2 :: rest =>
    match digitVal c1, digitVal c2 with
    | some d1, some d2 => .ok (10 * d1 + d2, rest)
    | some d1, none => .ok (d1, c2 :: rest)
    | none, _ => .error (.badData "number" (String.mk (c1 :: c2 :: rest)))

/-- A fixed three-digit numeric element (the `.000` fraction digits). -/
def num3 : List Char → Except TimeParseError (Nat × List Char)
  | c1 :: c2 :: c3 :: rest =>
    match digitVal c1, digitVal c2, digitVal c3 with
    | some d1, some d2, some d3 => .ok (100 * d1 + 10 * d2 + d3, rest)
    | _, _, _ => .error (.badData "3-digit number" (String.mk (c1 :: c2 :: c3 :: rest)))
  | v => .error (.badData "3-digit number" (String.mk v))

/-- The four-digit year element `2006`. -/
def num4 : List Char → Except TimeParseError (Nat × List Char)
  | c1 :: c2 :: c3 :: c4 :: rest =>
    match digitVal c1, digitVal c2, digitVal c3, digitVal c4 with
    | some d1, some d2, some d3, some d4 =>
      .ok (1000 * d1 + 100 * d2 + 10 * d3 + d4, rest)
    | _, _, _, _ =>
      .error (.badData "4-digit year" (String.mk (c1 :: c2 :: c3 :: c4 :: rest)))
  | v => .error (.badData "4-digit year" (String.mk v))

/-- Zone offset in seconds from the parsed `±hhmm` element. -/
def sfOffset (sign : Char) (zh zm : Nat) : Int :=
  (if sign = '-' then -1 else 1) * (((zh * 60 + zm) * 60 : Nat) : Int)

/-- Go `time.Parse("\"2006-01-02T15:04:05.000-0700\"", s)`: match each
layout element in order (range-checking month, hour, minute and second
inline as Go does), require the numeric `±hhmm` timezone, reject trailing
input, check the day against the month length, and build the instant. -/
def parseSalesforceTimeString (s : String) : Except TimeParseError GoTime := do
  let v := s.data
  let v ← expectChar '"' v
  let (year, v) ← num4 v
  let v ← expectChar '-' v
  let (month, v) ← num2 v
  if month ≤ 0 ∨ 12 < month then throw (.outOfRange "month")
  let v ← expectChar '-' v
  let (day, v) ← num2 v
  let v ← expectChar 'T' v
  let (hour, v) ← num12 v
  if 24 ≤ hour then throw (.outOfRange "hour")
  let v ← expectChar ':' v
  let (minute, v) ← num2 v
  if 60 ≤ minute then throw (.outOfRange "minute")
  let v ← expectChar ':' v
  let (second, v) ← num2 v
  if 60 ≤ second then throw (.outOfRange "second")
  let v ← (match v with
    | c :: rest =>
      if c = '.' ∨ c = ',' then pure rest
      else throw (TimeParseError.badData ".000" (String.mk (c :: rest)))
    | [] => throw (TimeParseError.badData ".000" ""))
  let (ms, v) ← num3 v
  let (sign, v) ← (match v with
    | c :: rest =>
      if c = '+' ∨ c = '-' then pure (c, rest)
      else throw (TimeParseError.badData "-0700" (String.mk (c :: rest)))
    | [] => throw (TimeParseError.badData "-0700" ""))
  let (zh, v) ← num2 v
  let (zm, v) ← num2 v
  let v ← expectChar '"' v
  if v ≠ [] then throw (.extraText (String.mk v))
  if day < 1 ∨ daysInMonth (Int.ofNat year) month < day then throw (.outOfRange "day")
  pure (mkGoTime (Int.ofNat year) month day hour minute second ((ms : Int) * 1000000)
    (sfOffset sign zh zm))

/-! ### `SalesforceTime` and its JSON decoding (`bulk.go` lines 52-68) -/

structure SalesforceTime where
  time : GoTime
deriving DecidableEq, Repr

def SalesforceTime.zeroValue : SalesforceTime := ⟨GoTime.zeroValue⟩

/-- Model of `func (t *SalesforceTime) UnmarshalJSON(b []byte) error`
(`bulk.go` 56-68).  The Go method mutates its receiver through a pointer;
this is modelled by returning the receiver value after the call together
with the returned error.  On the literal `null` the method returns nil
without touching the receiver; on a parse error it returns the error and
leaves the receiver alone; on success it stores the parsed time. -/
def SalesforceTime.UnmarshalJSON (t : SalesforceTime) (b : String) :
    SalesforceTime × Option TimeParseError :=
  if b = "null" then (t, none)
  else
    match parseSalesforceTimeString b with
    | .error e => (t, some e)
    | .ok tt => (⟨tt⟩, none)

/-! ### HTTP transport values

Request construction (Go `http.NewRequest` plus `Header.Add` calls) is
modelled as building an `HttpRequest` value; the transport's answer is an
`HttpResponse` value, and the response-processing half of each Go function
is a pure function of it. -/

structure HttpRequest where
  method : String
  url : String
  headers : List (String × String)
deriving DecidableEq, Repr

/-- An HTTP response: `statusCode` is `resp.StatusCode`, `status` the
status line `resp.Status`, `headers` the response header, `body` the full
body text. -/
structure HttpResponse where
  statusCode : Nat
  status : String
  headers : List (String × String)
  body : String
deriving DecidableEq, Repr

/-- Go `resp.Header.Get(k)`: first value for the key, `""` when absent. -/
def headerGet (hs : List (String × String)) (k : String) : String :=
  match hs.find? (fun p => p.1 == k) with
  | some p => p.2
  | none => ""

/-- Modelled from the spec: the shared transport/session object (`Client`)
is an external collaborator not part of the core source; per the spec it
supplies the bearer session token and builds URLs from a versioned API
base URL, so `makeURL` prefixes the base URL onto the relative path. -/
structure Client where
  baseURL : String
  sessionID : String
deriving DecidableEq, Repr

def Client.makeURL (c : Client) (path : String) : String :=
  c.baseURL ++ path

/-- Model of `type BulkJob struct` (`bulk.go` 70-84). -/
structure BulkJob where
  client : Client
  Id : String
  Operation : String
  Object : String
  CreatedById : String
  CreatedDate : SalesforceTime
  SystemModstamp : SalesforceTime
  State : String
  ConcurrencyMode : String
  ContentType : String
  ApiVersion : Float
  LineEnding : String
  ColumnDelimiter : String

/-- Model of `type BulkJobResultSet struct` (`bulk.go` 39-43);
the `*bytes.Buffer` body is its text content. -/
structure BulkJobResultSet where
  Body : String
  Next : String
  Rows : Int
deriving DecidableEq, Repr

/-- Model of `type BulkJobStatus struct` (`bulk.go` 45-50). -/
structure BulkJobStatus where
  State : JobStateEnum
  NumberRecordsProcessed : Int
  Retries : Int
  TotalProcessingTimeMilliseconds : Int
deriving DecidableEq, Repr

/-! ### Go `strconv.Atoi` with its error discarded (`bulk.go` 150-152) -/

/-- All-decimal-digit run to its value (empty list is not a number). -/
def digitsToNatAux : List Char → Nat → Option Nat
  | [], acc => some acc
  | c :: rest, acc =>
    match digitVal c with
    | some d => digitsToNatAux rest (acc * 10 + d)
    | none => none

def digitsToNat? : List Char → Option Nat
  | [] => none
  | l => digitsToNatAux l 0

/-- The syntax accepted by `strconv.Atoi`: an optional `+` or `-` sign
followed by one or more decimal digits and nothing else. -/
def parseDecInt (s : String) : Option Int :=
  match s.data with
  | '+' :: rest => (digitsToNat? rest).map (fun n => (n : Int))
  | '-' :: rest => (digitsToNat? rest).map (fun n => -(n : Int))
  | l => (digitsToNat? l).map (fun n => (n : Int))

def maxInt64 : Int := 9223372036854775807
def minInt64 : Int := -9223372036854775808

/-- Model of Go `strconv.Atoi` on a 64-bit platform: the returned value
and whether the call succeeded.  On a syntax error the returned value is
0; on a value outside the signed 64-bit range the returned value is the
clamped bound and the error is `ErrRange`. -/
def goAtoi (s : String) : Int × Bool :=
  match parseDecInt s with
  | none => (0, false)
  | some v =>
    if maxInt64 < v then (maxInt64, false)
    else if v < minInt64 then (minInt64, false)
    else (v, true)

/-! ### The job façade operations (`bulk.go` 118-180) -/

/-- The request built by `GetResultSet` (`bulk.go` 119-127): note that the
`locator` parameter of the Go function is never attached to the request —
neither as a header nor as a query parameter. -/
def BulkJob.resultSetRequest (job : BulkJob) (locator : String) : HttpRequest :=
  { method := "GET"
    url := job.client.makeURL ("jobs/query/" ++ job.Id ++ "/results")
    headers := [("Content-Type", "application/json"),
                ("Accept", "text/csv"),
                ("Authorization", "Bearer " ++ job.client.sessionID)] }

/-- Response processing of `GetResultSet` (`bulk.go` 134-157): status ≥ 400
fails with status line and body; otherwise the body is buffered and the
`Sforce-NumberOfRecords` / `Sforce-Locator` headers are extracted, the
record count through `strconv.Atoi` with the error discarded. -/
def BulkJob.GetResultSet (job : BulkJob) (locator : String) (resp : HttpResponse) :
    Except String BulkJobResultSet :=
  if 400 ≤ resp.statusCode then
    .error ("failed to get result set from bulk job: " ++ resp.status
      ++ " body(" ++ resp.body ++ ")")
  else
    .ok { Body := resp.body
          Next := headerGet resp.headers "Sforce-Locator"
          Rows := (goAtoi (headerGet resp.headers "Sforce-NumberOfRecords")).1 }

/-- The request built by `Delete` (`bulk.go` 161-168): a GET to the job's
status endpoint (not the results endpoint) with bearer authentication. -/
def BulkJob.deleteRequest (job : BulkJob) : HttpRequest :=
  { method := "GET"
    url := job.client.makeURL ("jobs/query/" ++ job.Id)
    headers := [("Content-Type", "application/json"),
                ("Authorization", "Bearer " ++ job.client.sessionID)] }

/-- Response processing of `Delete` (`bulk.go` 175-179). -/
def BulkJob.Delete (job : BulkJob) (resp : HttpResponse) : Option String :=
  if 400 ≤ resp.statusCode then
    some ("failed to delete bulk job: " ++ resp.status ++ " body(" ++ resp.body ++ ")")
  else none

/-! ### The polling loop `Wait` (`bulk.go` 100-116)

`Wait` is a non-terminating loop in general, so it is embedded with an
explicit fuel bound on the number of iterations.  The cancellation signal
is `ctxDone i` (whether `ctx.Done()` is ready at the start of iteration
`i`), and `getStatus i` is the outcome of the `i`-th `GetStatus` call
(`.error e` a transport/decode failure, `.ok st` a decoded snapshot).
The model returns the loop's outcome together with the number of status
fetches performed and the list of sleep durations (in seconds) taken. -/

inductive WaitResult where
  | canceled : WaitResult
  | statusFailure (e : String) : WaitResult
  | finished (e : Option String) : WaitResult
  | fuelExhausted : WaitResult
deriving DecidableEq, Repr

def wait (ctxDone : Nat → Bool) (getStatus : Nat → Except String BulkJobStatus) :
    Nat → Nat → WaitResult × Nat × List Nat
  | 0, _ => (.fuelExhausted, 0, [])
  | fuel + 1, i =>
    if ctxDone i then (.canceled, 0, [])
    else
      match getStatus i with
      | .error e => (.statusFailure e, 1, [])
      | .ok st =>
        if st.State.IsFinished then (.finished st.State.ToError, 1, [])
        else
          let r := wait ctxDone getStatus fuel (i + 1)
          (r.1, r.2.1 + 1, 10 :: r.2.2)

/-! ### Encoders for timestamp wire strings

These build the quoted wire strings of the spec's timestamp grammar
(`"YYYY-MM-DDThh:mm:ss.sss±hhmm"`) and the two rejected ISO variants
(trailing `Z`, colon offset), at the character-list level so theorems can
quantify over all field values. -/

def digitChar (d : Nat) : Char := Char.ofNat (48 + d)

def pad2 (n : Nat) : String := String.mk [digitChar (n / 10), digitChar (n % 10)]

def pad3 (n : Nat) : String :=
  String.mk [digitChar (n / 100), digitChar ((n / 10) % 10), digitChar (n % 10)]

def pad4 (n : Nat) : String :=
  String.mk [digitChar (n / 1000), digitChar ((n / 100) % 10),
    digitChar ((n / 10) % 10), digitChar (n % 10)]

/-- The characters of `YYYY-MM-DDThh:mm:ss.sss` (the part shared by all
three offset variants), preceded by the opening quote. -/
def sfCoreChars (y m d h mi s ms : Nat) : List Char :=
  (pad4 y).data ++ '-' :: (pad2 m).data ++ '-' :: (pad2 d).data
    ++ 'T' :: (pad2 h).data ++ ':' :: (pad2 mi).data ++ ':' :: (pad2 s).data
    ++ '.' :: (pad3 ms).data

/-- A quoted timestamp in the accepted numeric-offset pattern
`"YYYY-MM-DDThh:mm:ss.sss±hhmm"`. -/
def encodeSfTime (y m d h mi s ms : Nat) (sign : Char) (zh zm : Nat) : String :=
  String.mk ('"' :: sfCoreChars y m d h mi s ms
    ++ sign :: (pad2 zh).data ++ (pad2 zm).data ++ ['"'])

/-- A quoted timestamp in the Z-suffixed ISO form
`"YYYY-MM-DDThh:mm:ss.sssZ"`. -/
def encodeSfTimeZ (y m d h mi s ms : Nat) : String :=
  String.mk ('"' :: sfCoreChars y m d h mi s ms ++ 'Z' :: ['"'])

/-- A quoted timestamp in the colon-offset ISO form
`"YYYY-MM-DDThh:mm:ss.sss+hh:mm"`. -/
def encodeSfTimeColon (y m d h mi s ms zh zm : Nat) : String :=
  String.mk ('"' :: sfCoreChars y m d h mi s ms
    ++ '+' :: (pad2 zh).data ++ ':' :: (pad2 zm).data ++ ['"'])

/-! ### Stepping lemmas for the parser on encoded inputs -/

theorem data_mk (l : List Char) : (String.mk l).data = l := rfl

theorem digitVal_digitChar (d : Nat) (h : d < 10) : digitVal (digitChar d) = some d := by
  interval_cases d <;> rfl

theorem expectChar_cons (c : Char) (rest : List Char) :
    expectChar c (c :: rest) = .ok rest := by
  simp [expectChar]

theorem num2_pad2 (n : Nat) (h : n < 100) (rest : List Char) :
    num2 ((pad2 n).data ++ rest) = .ok (n, rest) := by
  have h1 : n / 10 < 10 := by omega
  have h2 : n % 10 < 10 := by omega
  simp only [pad2, data_mk, List.cons_append, List.nil_append, num2,
    digitVal_digitChar _ h1, digitVal_digitChar _ h2]
  congr 1
  simp only [Prod.mk.injEq, and_true]
  omega

theorem num12_pad2 (n : Nat) (h : n < 100) (rest : List Char) :
    num12 ((pad2 n).data ++ rest) = .ok (n, rest) := by
  have h1 : n / 10 < 10 := by omega
  have h2 : n % 10 < 10 := by omega
  simp only [pad2, data_mk, List.cons_append, List.nil_append, num12,
    digitVal_digitChar _ h1, digitVal_digitChar _ h2]
  congr 1
  simp only [Prod.mk.injEq, and_true]
  omega

theorem num3_pad3 (n : Nat) (h : n < 1000) (rest : List Char) :
    num3 ((pad3 n).data ++ rest) = .ok (n, rest) := by
  have h1 : n / 100 < 10 := by omega
  have h2 : (n / 10) % 10 < 10 := by omega
  have h3 : n % 10 < 10 := by omega
  simp only [pad3, data_mk, List.cons_append, List.nil_append, num3,
    digitVal_digitChar _ h1, digitVal_digitChar _ h2, digitVal_digitChar _ h3]
  congr 1
  simp only [Prod.mk.injEq, and_true]
  omega

theorem list_getD_le (b : Nat) : ∀ (l : List Nat), (∀ x ∈ l, x ≤ b) → ∀ m, l.getD m 0 ≤ b
  | [], _, m => by simp [List.getD_nil]
  | a :: t, hb, 0 => by simpa using hb a (List.mem_cons_self a t)
  | a :: t, hb, m + 1 => by
      rw [List.getD_cons_succ]
      exact list_getD_le b t (fun x hx => hb x (List.mem_cons_of_mem a hx)) m

theorem daysInMonth_le (y : Int) (m : Nat) : daysInMonth y m ≤ 31 := by
  unfold daysInMonth
  split
  · split <;> omega
  · exact list_getD_le 31 _ (by decide) m

theorem except_ok_bind {e a b : Type} (x : a) (f : a → Except e b) :
    (Except.ok x : Except e a) >>= f = f x := rfl

theorem except_error_bind {e a b : Type} (err : e) (f : a → Except e b) :
    (Except.error err : Except e a) >>= f = .error err := rfl

theorem except_throw {e a : Type} (err : e) : (throw err : Except e a) = .error err := rfl

theorem except_pure {e a : Type} (x : a) : (pure x : Except e a) = .ok x := rfl

theorem digitVal_colon : digitVal ':' = none := rfl

theorem num4_pad4 (n : Nat) (h : n < 10000) (rest : List Char) :
    num4 ((pad4 n).data ++ rest) = .ok (n, rest) := by
  have h1 : n / 1000 < 10 := by omega
  have h2 : (n / 100) % 10 < 10 := by omega
  have h3 : (n / 10) % 10 < 10 := by omega
  have h4 : n % 10 < 10 := by omega
  simp only [pad4, data_mk, List.cons_append, List.nil_append, num4,
    digitVal_digitChar _ h1, digitVal_digitChar _ h2,
    digitVal_digitChar _ h3, digitVal_digitChar _ h4]
  congr 1
  simp only [Prod.mk.injEq, and_true]
  omega

/-- The parser accepts every well-formed numeric-offset timestamp and
produces the instant of its civil fields shifted by the signed offset. -/
theorem parse_encodeSfTime (y m d h mi s ms zh zm : Nat) (sign : Char)
    (hy : y ≤ 9999) (hm1 : 1 ≤ m) (hm2 : m ≤ 12)
    (hd1 : 1 ≤ d) (hd2 : d ≤ daysInMonth (Int.ofNat y) m)
    (hh : h ≤ 23) (hmi : mi ≤ 59) (hs : s ≤ 59) (hms : ms ≤ 999)
    (hzh : zh ≤ 99) (hzm : zm ≤ 99) (hsign : sign = '+' ∨ sign = '-') :
    parseSalesforceTimeString (encodeSfTime y m d h mi s ms sign zh zm) =
      .ok (mkGoTime (Int.ofNat y) m d h mi s ((ms : Int) * 1000000) (sfOffset sign zh zm)) := by
  unfold parseSalesforceTimeString encodeSfTime sfCoreChars
  simp only [data_mk, List.cons_append, List.nil_append, List.append_assoc]
  simp only [except_ok_bind, num4_pad4 y (by omega), num2_pad2 m (by omega),
    num2_pad2 d (by have := daysInMonth_le (Int.ofNat y) m; omega),
    num12_pad2 h (by omega), num2_pad2 mi (by omega),
    num2_pad2 s (by omega), num3_pad3 ms (by omega),
    num2_pad2 zh (by omega), num2_pad2 zm (by omega),
    expectChar_cons, except_throw, except_pure,
    if_neg (show ¬(m ≤ 0 ∨ 12 < m) by omega),
    if_neg (show ¬(24 ≤ h) by omega),
    if_neg (show ¬(60 ≤ mi) by omega),
    if_neg (show ¬(60 ≤ s) by omega),
    if_pos (show ('.' : Char) = '.' ∨ ('.' : Char) = ',' from Or.inl rfl),
    if_neg (show ¬(d < 1 ∨ daysInMonth (Int.ofNat y) m < d) by omega)]
  rcases hsign with rfl | rfl <;>
    simp only [true_or, or_true, if_true, eq_self_iff_true, except_ok_bind,
      num3_pad3 ms (by omega), num2_pad2 zh (by omega), num2_pad2 zm (by omega),
      expectChar_cons, ne_eq, not_true_eq_false, if_false, except_pure]

/-- The parser rejects the Z-suffixed ISO form at the timezone element. -/
theorem parse_encodeSfTimeZ (y m d h mi s ms : Nat)
    (hy : y ≤ 9999) (hm1 : 1 ≤ m) (hm2 : m ≤ 12)
    (hd1 : 1 ≤ d) (hd2 : d ≤ 31)
    (hh : h ≤ 23) (hmi : mi ≤ 59) (hs : s ≤ 59) (hms : ms ≤ 999) :
    parseSalesforceTimeString (encodeSfTimeZ y m d h mi s ms) =
      .error (.badData "-0700" (String.mk ['Z', '"'])) := by
  unfold parseSalesforceTimeString encodeSfTimeZ sfCoreChars
  simp only [data_mk, List.cons_append, List.nil_append, List.append_assoc]
  simp only [except_ok_bind, num4_pad4 y (by omega), num2_pad2 m (by omega),
    num2_pad2 d (by omega), num12_pad2 h (by omega), num2_pad2 mi (by omega),
    num2_pad2 s (by omega), num3_pad3 ms (by omega),
    expectChar_cons, except_throw, except_pure,
    if_neg (show ¬(m ≤ 0 ∨ 12 < m) by omega),
    if_neg (show ¬(24 ≤ h) by omega),
    if_neg (show ¬(60 ≤ mi) by omega),
    if_neg (show ¬(60 ≤ s) by omega),
    true_or, or_true, if_true, eq_self_iff_true,
    if_neg (show ¬(('Z' : Char) = '+' ∨ ('Z' : Char) = '-') by decide),
    except_error_bind]

/-- The parser rejects the colon-offset ISO form: inside the numeric
timezone element the character after the offset hour must be a digit, and
the colon is not. -/
theorem parse_encodeSfTimeColon (y m d h mi s ms zh zm : Nat)
    (hy : y ≤ 9999) (hm1 : 1 ≤ m) (hm2 : m ≤ 12)
    (hd1 : 1 ≤ d) (hd2 : d ≤ 31)
    (hh : h ≤ 23) (hmi : mi ≤ 59) (hs : s ≤ 59) (hms : ms ≤ 999)
    (hzh : zh ≤ 99) (hzm : zm ≤ 99) :
    parseSalesforceTimeString (encodeSfTimeColon y m d h mi s ms zh zm) =
      .error (.badData "2-digit number" (String.mk (':' :: (pad2 zm).data ++ ['"']))) := by
  unfold parseSalesforceTimeString encodeSfTimeColon sfCoreChars
  simp only [data_mk, List.cons_append, List.nil_append, List.append_assoc]
  simp only [except_ok_bind, num4_pad4 y (by omega), num2_pad2 m (by omega),
    num2_pad2 d (by omega), num12_pad2 h (by omega), num2_pad2 mi (by omega),
    num2_pad2 s (by omega), num3_pad3 ms (by omega), num2_pad2 zh (by omega),
    expectChar_cons, except_throw, except_pure,
    if_neg (show ¬(m ≤ 0 ∨ 12 < m) by omega),
    if_neg (show ¬(24 ≤ h) by omega),
    if_neg (show ¬(60 ≤ mi) by omega),
    if_neg (show ¬(60 ≤ s) by omega),
    true_or, or_true, if_true, eq_self_iff_true,
    except_error_bind]
  simp only [pad2, data_mk, List.cons_append, num2, digitVal_colon, except_error_bind]

theorem mk_quote_ne_null (l : List Char) : String.mk ('"' :: l) ≠ "null" := by
  intro hcontr
  have h2 : '"' :: l = ['n', 'u', 'l', 'l'] := congrArg String.data hcontr
  injection h2 with h3 _
  exact absurd h3 (by decide)

/-- Unrolling `wait` over a run of `k` non-terminal polls followed by a
terminal one, from any start iteration `i`, with any spare fuel. -/
theorem wait_run (ctxDone : Nat → Bool) (st : Nat → BulkJobStatus)
    (hdone : ∀ i, ctxDone i = false) :
    ∀ (k i fuel : Nat),
      (∀ j, j < k → (st (i + j)).State.IsFinished = false) →
      (st (i + k)).State.IsFinished = true →
      wait ctxDone (fun n => .ok (st n)) (fuel + (k + 1)) i =
        (.finished ((st (i + k)).State.ToError), k + 1, List.replicate k 10) := by
  intro k
  induction k with
  | zero =>
    intro i fuel _ hterm
    rw [Nat.add_zero] at hterm
    show wait ctxDone (fun n => .ok (st n)) (fuel + 1) i = _
    simp [wait, hdone, hterm]
  | succ k ih =>
    intro i fuel hnon hterm
    have hstep : (st i).State.IsFinished = false := by simpa using hnon 0 (by omega)
    show wait ctxDone (fun n => .ok (st n)) ((fuel + (k + 1)) + 1) i = _
    have hrec := ih (i + 1) fuel
      (fun j hj => by
        have := hnon (j + 1) (by omega)
        rwa [show i + (j + 1) = i + 1 + j by omega] at this)
      (by rwa [show i + (k + 1) = i + 1 + k by omega] at hterm)
    rw [wait]
    simp only [hdone, Bool.false_eq_true, if_false, hstep]
    rw [hrec]
    simp [List.replicate_succ, show i + 1 + k = i + (k + 1) by omega]

/-! ### Concrete fixtures used by witnesses -/

def exampleClient : Client :=
  ⟨"https://example.my.salesforce.com/services/data/v58.0/", "00Dxx0000001gPFEAY"⟩

def exampleJob : BulkJob :=
  { client := exampleClient
    Id := "750xx000000005LAAQ"
    Operation := "query"
    Object := "Account"
    CreatedById := "005xx000001X7dFAAS"
    CreatedDate := SalesforceTime.zeroValue
    SystemModstamp := SalesforceTime.zeroValue
    State := "UploadComplete"
    ConcurrencyMode := "Parallel"
    ContentType := "CSV"
    ApiVersion := 58.0
    LineEnding := "LF"
    ColumnDelimiter := "COMMA" }

/-! ### Claim theorems -/

/-- C1: the claim states that `GetResultSet` attaches a non-empty
continuation token to the outgoing results request so that the request
issued for token `t` differs from the one issued for the empty token.
The code violates this: the `locator` parameter of `GetResultSet`
(`bulk.go` 118) is never used — the URL and every header of the request
built in lines 119-127 are independent of it — so for every job and every
token the outgoing request is identical to the empty-token request and
the server can never resume from the prior page. -/
theorem resultSetRequest_ignores_locator :
    ∀ (job : BulkJob) (locator : String),
      job.resultSetRequest locator = job.resultSetRequest "" :=
  fun _ _ => rfl

/-- C7: `ToError` yields the error "job aborted" exactly on `Aborted` and
"job failed" exactly on `Failed`, the two being distinguishable, and `none`
on every other state of the five-state enumeration, `JobComplete` included;
it is a total function of the state. -/
theorem toError_spec :
    JobStateEnum.ToError Aborted = some "job aborted" ∧
    JobStateEnum.ToError Failed = some "job failed" ∧
    JobStateEnum.ToError Aborted ≠ JobStateEnum.ToError Failed ∧
    (∀ j : JobStateEnum,
      j ∈ [UploadComplete, InProgress, Aborted, JobComplete, Failed] →
      j ≠ Aborted → j ≠ Failed → j.ToError = none) := by
  decide

theorem toError_spec_witness : JobStateEnum.ToError JobComplete = none :=
  toError_spec.2.2.2 JobComplete (by decide) (by decide) (by decide)

/-- C2: with an uncancelled signal, a run of `k` non-terminal polls
(`UploadComplete` or `InProgress`) followed by a terminal one makes `Wait`
perform exactly `k + 1` status fetches and exactly `k` sleeps of 10
seconds, returning `ToError` of the terminal state; in particular two
`InProgress` polls then `JobComplete` give a nil error after three fetches
and two sleeps, and `Failed` on the first poll gives the job-failed error
after one fetch and zero sleeps. -/
theorem wait_poll_and_sleep_count :
    (∀ (ctxDone : Nat → Bool) (st : Nat → BulkJobStatus) (k fuel : Nat),
      (∀ i, ctxDone i = false) →
      (∀ i, i < k → (st i).State = UploadComplete ∨ (st i).State = InProgress) →
      (st k).State.IsFinished = true →
      k < fuel →
      wait ctxDone (fun n => .ok (st n)) fuel 0 =
        (.finished ((st k).State.ToError), k + 1, List.replicate k 10)) ∧
    wait (fun _ => false)
      (fun n => .ok ⟨if n < 2 then InProgress else JobComplete, 0, 0, 0⟩) 4 0 =
      (.finished none, 3, [10, 10]) ∧
    wait (fun _ => false) (fun _ => .ok ⟨Failed, 0, 0, 0⟩) 4 0 =
      (.finished (some "job failed"), 1, []) := by
  refine ⟨?_, by decide, by decide⟩
  intro ctxDone st k fuel hcd hns hterm hfuel
  obtain ⟨m, rfl⟩ : ∃ m, fuel = m + (k + 1) := ⟨fuel - (k + 1), by omega⟩
  have hnon : ∀ j, j < k → (st (0 + j)).State.IsFinished = false := by
    intro j hj
    rw [Nat.zero_add]
    rcases hns j hj with hst | hst <;> rw [hst] <;> decide
  have hmain := wait_run ctxDone st hcd k 0 m hnon (by rwa [Nat.zero_add])
  rwa [Nat.zero_add] at hmain

theorem wait_poll_and_sleep_count_witness :
    wait (fun _ => false)
      (fun n => .ok ⟨if n < 2 then InProgress else JobComplete, 0, 0, 0⟩) 5 0 =
      (.finished none, 3, List.replicate 2 10) :=
  (wait_poll_and_sleep_count.1 (fun _ => false)
    (fun n => ⟨if n < 2 then InProgress else JobComplete, 0, 0, 0⟩) 2 5
    (fun _ => rfl) (by decide) (by decide) (by decide)).trans (by decide)

/-- C3: if the cancellation signal is triggered at the start of an
iteration, `Wait` returns the cancellation outcome at once, performing no
status fetch and no sleep — in particular a pre-cancelled signal means no
HTTP request at all — and the cancellation outcome is distinguishable from
the job-outcome and the transport/decode failure outcomes. -/
theorem wait_canceled_spec :
    (∀ (ctxDone : Nat → Bool) (getStatus : Nat → Except String BulkJobStatus)
      (fuel i : Nat),
      0 < fuel → ctxDone i = true →
      wait ctxDone getStatus fuel i = (.canceled, 0, [])) ∧
    (∀ e : Option String, WaitResult.canceled ≠ WaitResult.finished e) ∧
    (∀ e : String, WaitResult.canceled ≠ WaitResult.statusFailure e) := by
  refine ⟨?_, fun e => by simp, fun e => by simp⟩
  intro ctxDone getStatus fuel i hf hcd
  obtain ⟨m, rfl⟩ : ∃ m, fuel = m + 1 := ⟨fuel - 1, by omega⟩
  simp [wait, hcd]

theorem wait_canceled_spec_witness :
    wait (fun _ => true) (fun _ => .ok ⟨InProgress, 0, 0, 0⟩) 3 0 =
      (.canceled, 0, []) :=
  wait_canceled_spec.1 (fun _ => true) (fun _ => .ok ⟨InProgress, 0, 0, 0⟩) 3 0
    (by decide) rfl

/-- C4: every input in the Z-suffixed or colon-offset ISO-8601 form is
rejected by `SalesforceTime.UnmarshalJSON` with a non-nil parse error that
carries the mismatch reason (the failing layout element and the offending
text), the generic `Z07:00` offset grammar not being accepted; the
receiver is left unchanged. -/
theorem unmarshalJSON_rejects_iso_offsets :
    ∀ (t : SalesforceTime) (y m d h mi s ms zh zm : Nat),
      y ≤ 9999 → 1 ≤ m → m ≤ 12 → 1 ≤ d → d ≤ 31 →
      h ≤ 23 → mi ≤ 59 → s ≤ 59 → ms ≤ 999 → zh ≤ 23 → zm ≤ 59 →
      t.UnmarshalJSON (encodeSfTimeZ y m d h mi s ms) =
        (t, some (.badData "-0700" (String.mk ['Z', '"']))) ∧
      t.UnmarshalJSON (encodeSfTimeColon y m d h mi s ms zh zm) =
        (t, some (.badData "2-digit number"
          (String.mk (':' :: (pad2 zm).data ++ ['"'])))) := by
  intro t y m d h mi s ms zh zm hy hm1 hm2 hd1 hd2 hh hmi hs hms hzh hzm
  constructor
  · unfold SalesforceTime.UnmarshalJSON
    rw [if_neg (show encodeSfTimeZ y m d h mi s ms ≠ "null" from mk_quote_ne_null _),
      parse_encodeSfTimeZ y m d h mi s ms hy hm1 hm2 hd1 hd2 hh hmi hs hms]
  · unfold SalesforceTime.UnmarshalJSON
    rw [if_neg (show encodeSfTimeColon y m d h mi s ms zh zm ≠ "null" from
        mk_quote_ne_null _),
      parse_encodeSfTimeColon y m d h mi s ms zh zm hy hm1 hm2 hd1 hd2 hh hmi hs hms
        (by omega) (by omega)]

theorem unmarshalJSON_rejects_iso_offsets_witness :
    SalesforceTime.zeroValue.UnmarshalJSON "\"2023-12-02T02:30:02.000Z\"" =
      (SalesforceTime.zeroValue, some (.badData "-0700" (String.mk ['Z', '"']))) ∧
    SalesforceTime.zeroValue.UnmarshalJSON "\"2023-12-02T02:30:02.000+00:00\"" =
      (SalesforceTime.zeroValue, some (.badData "2-digit number"
        (String.mk (':' :: (pad2 0).data ++ ['"'])))) := by
  have h := unmarshalJSON_rejects_iso_offsets SalesforceTime.zeroValue
    2023 12 2 2 30 2 0 0 0 (by omega) (by omega) (by omega) (by omega) (by omega)
    (by omega) (by omega) (by omega) (by omega) (by omega) (by omega)
  refine ⟨?_, ?_⟩
  · have heq : encodeSfTimeZ 2023 12 2 2 30 2 0 = "\"2023-12-02T02:30:02.000Z\"" := by
      decide
    rw [← heq]
    exact h.1
  · have heq : encodeSfTimeColon 2023 12 2 2 30 2 0 0 0 =
        "\"2023-12-02T02:30:02.000+00:00\"" := by decide
    rw [← heq]
    exact h.2

/-- C5: the quoted numeric-offset input "2023-12-02T02:30:02.000+0000"
decodes with no error to the instant 2023-12-02T02:30:02 UTC, and every
quoted string in the exact pattern YYYY-MM-DDThh:mm:ss.sss±hhmm (calendar
fields in range) decodes with no error to the instant of its civil fields
shifted by the signed numeric offset. -/
theorem unmarshalJSON_numeric_offset :
    (∀ t : SalesforceTime,
      t.UnmarshalJSON "\"2023-12-02T02:30:02.000+0000\"" =
        (⟨mkGoTime 2023 12 2 2 30 2 0 0⟩, none)) ∧
    (∀ (t : SalesforceTime) (y m d h mi s ms zh zm : Nat) (sign : Char),
      y ≤ 9999 → 1 ≤ m → m ≤ 12 → 1 ≤ d → d ≤ daysInMonth (Int.ofNat y) m →
      h ≤ 23 → mi ≤ 59 → s ≤ 59 → ms ≤ 999 → zh ≤ 99 → zm ≤ 99 →
      (sign = '+' ∨ sign = '-') →
      t.UnmarshalJSON (encodeSfTime y m d h mi s ms sign zh zm) =
        (⟨mkGoTime (Int.ofNat y) m d h mi s ((ms : Int) * 1000000)
          (sfOffset sign zh zm)⟩, none)) := by
  constructor
  · intro t
    unfold SalesforceTime.UnmarshalJSON
    rw [if_neg (by decide),
      show parseSalesforceTimeString "\"2023-12-02T02:30:02.000+0000\"" =
        .ok (mkGoTime 2023 12 2 2 30 2 0 0) by decide]
  · intro t y m d h mi s ms zh zm sign hy hm1 hm2 hd1 hd2 hh hmi hs hms hzh hzm hsign
    unfold SalesforceTime.UnmarshalJSON
    rw [if_neg (show encodeSfTime y m d h mi s ms sign zh zm ≠ "null" from
        mk_quote_ne_null _),
      parse_encodeSfTime y m d h mi s ms zh zm sign hy hm1 hm2 hd1 hd2 hh hmi hs hms
        hzh hzm hsign]

theorem unmarshalJSON_numeric_offset_witness :
    SalesforceTime.zeroValue.UnmarshalJSON (encodeSfTime 2024 2 29 23 59 59 999 '-' 11 30) =
      (⟨mkGoTime (Int.ofNat 2024) 2 29 23 59 59 (((999 : Nat) : Int) * 1000000)
        (sfOffset '-' 11 30)⟩, none) :=
  unmarshalJSON_numeric_offset.2 SalesforceTime.zeroValue 2024 2 29 23 59 59 999 11 30 '-'
    (by omega) (by omega) (by omega) (by omega) (by decide) (by omega) (by omega)
    (by omega) (by omega) (by omega) (by omega) (Or.inr rfl)

/-- C6 counterexample: invoked on a receiver holding a non-zero instant,
the codec decodes JSON null with no error but the receiver afterwards is
NOT the zero-value instant, refuting the claim's "for every receiver". -/
theorem unmarshalJSON_null_nonzero_receiver :
    ((⟨mkGoTime 2023 12 2 2 30 2 0 0⟩ : SalesforceTime).UnmarshalJSON "null").2 = none ∧
    ((⟨mkGoTime 2023 12 2 2 30 2 0 0⟩ : SalesforceTime).UnmarshalJSON "null").1 ≠
      SalesforceTime.zeroValue := by
  decide

/-- C6 amended: on JSON null the codec reports no error and leaves the
receiver unchanged, so the result is the zero-value instant exactly when
the receiver already held it — as a freshly zero-initialized decoding
target does. -/
theorem unmarshalJSON_null_no_error :
    (∀ t : SalesforceTime, t.UnmarshalJSON "null" = (t, none)) ∧
    SalesforceTime.zeroValue.UnmarshalJSON "null" =
      (SalesforceTime.zeroValue, none) := by
  constructor
  · intro t
    unfold SalesforceTime.UnmarshalJSON
    rw [if_pos rfl]
  · decide

/-- C10: `UnmarshalJSON` writes its receiver only on a successful parse:
on the null literal it reports no error and returns the receiver
unchanged, and whenever it reports an error the receiver is unchanged. -/
theorem unmarshalJSON_frame :
    ∀ (t : SalesforceTime) (b : String),
      (b = "null" → t.UnmarshalJSON b = (t, none)) ∧
      ((t.UnmarshalJSON b).2.isSome = true → (t.UnmarshalJSON b).1 = t) := by
  intro t b
  constructor
  · rintro rfl
    unfold SalesforceTime.UnmarshalJSON
    rw [if_pos rfl]
  · intro hsome
    unfold SalesforceTime.UnmarshalJSON at hsome ⊢
    by_cases hb : b = "null"
    · rw [if_pos hb] at hsome
      simp at hsome
    · rw [if_neg hb] at hsome ⊢
      cases hparse : parseSalesforceTimeString b with
      | error e => rfl
      | ok tt => simp [hparse] at hsome

theorem unmarshalJSON_frame_witness :
    SalesforceTime.zeroValue.UnmarshalJSON "null" = (SalesforceTime.zeroValue, none) ∧
    (SalesforceTime.zeroValue.UnmarshalJSON "\"bogus\"").1 = SalesforceTime.zeroValue :=
  ⟨(unmarshalJSON_frame SalesforceTime.zeroValue "null").1 rfl,
   (unmarshalJSON_frame SalesforceTime.zeroValue "\"bogus\"").2 (by decide)⟩

/-- C8: on any response with status ≥ 400 both `GetResultSet` and `Delete`
fail with an error whose text contains the status line and the raw body
text, and on status < 400 `Delete` succeeds with no return value. -/
theorem http_error_includes_status_and_body :
    ∀ (job : BulkJob) (locator : String) (resp : HttpResponse),
      (400 ≤ resp.statusCode →
        (∃ pre mid post, job.GetResultSet locator resp =
          .error (pre ++ resp.status ++ mid ++ resp.body ++ post)) ∧
        (∃ pre mid post, job.Delete resp =
          some (pre ++ resp.status ++ mid ++ resp.body ++ post))) ∧
      (resp.statusCode < 400 → job.Delete resp = none) := by
  intro job locator resp
  refine ⟨fun h400 =>
    ⟨⟨"failed to get result set from bulk job: ", " body(", ")", ?_⟩,
     ⟨"failed to delete bulk job: ", " body(", ")", ?_⟩⟩,
    fun hlt => ?_⟩
  · unfold BulkJob.GetResultSet
    rw [if_pos h400]
  · unfold BulkJob.Delete
    rw [if_pos h400]
  · unfold BulkJob.Delete
    rw [if_neg (by omega)]

theorem http_error_includes_status_and_body_witness :
    (∃ pre mid post, exampleJob.GetResultSet ""
        ⟨500, "500 Internal Server Error", [], "boom"⟩ =
      .error (pre ++ "500 Internal Server Error" ++ mid ++ "boom" ++ post)) ∧
    exampleJob.Delete ⟨204, "204 No Content", [], ""⟩ = none :=
  ⟨((http_error_includes_status_and_body exampleJob ""
      ⟨500, "500 Internal Server Error", [], "boom"⟩).1 (by decide)).1,
   (http_error_includes_status_and_body exampleJob ""
      ⟨204, "204 No Content", [], ""⟩).2 (by decide)⟩

/-- C9 counterexample: the claim says Rows is 0 whenever the
`Sforce-NumberOfRecords` header is unparsable.  But `strconv.Atoi` on a
decimal number beyond the signed 64-bit range fails with a range error
while returning the clamped bound, and the code discards the error and
keeps the value, so a successful call reports the clamped maximum, not 0. -/
theorem getResultSet_rows_out_of_range :
    (goAtoi "99999999999999999999").2 = false ∧
    exampleJob.GetResultSet ""
        ⟨200, "200 OK", [("Sforce-NumberOfRecords", "99999999999999999999")], ""⟩ =
      .ok ⟨"", "", 9223372036854775807⟩ ∧
    (9223372036854775807 : Int) ≠ 0 := by
  decide

/-- C9 amended: on every successful (status < 400) response the page
carries `Next` equal to the `Sforce-Locator` header (empty when absent,
signalling the end of results) and `Rows` equal to the value `strconv.Atoi`
returns for the `Sforce-NumberOfRecords` header with its error discarded:
0 when the header is missing or not a syntactically valid signed decimal
integer, the parsed value when it is one in signed 64-bit range (and the
clamped 64-bit bound when it is out of range); no error is raised in any
of these cases. -/
theorem getResultSet_success_headers :
    ∀ (job : BulkJob) (locator : String) (resp : HttpResponse),
      resp.statusCode < 400 →
      ∃ page, job.GetResultSet locator resp = .ok page ∧
        page.Next = headerGet resp.headers "Sforce-Locator" ∧
        page.Rows = (goAtoi (headerGet resp.headers "Sforce-NumberOfRecords")).1 ∧
        (parseDecInt (headerGet resp.headers "Sforce-NumberOfRecords") = none →
          page.Rows = 0) ∧
        (∀ v : Int,
          parseDecInt (headerGet resp.headers "Sforce-NumberOfRecords") = some v →
          minInt64 ≤ v → v ≤ maxInt64 → page.Rows = v) := by
  intro job locator resp hlt
  refine ⟨⟨resp.body, headerGet resp.headers "Sforce-Locator",
    (goAtoi (headerGet resp.headers "Sforce-NumberOfRecords")).1⟩, ?_, rfl, rfl, ?_, ?_⟩
  · unfold BulkJob.GetResultSet
    rw [if_neg (by omega)]
  · intro hnone
    simp [goAtoi, hnone]
  · intro v hv h1 h2
    unfold minInt64 at h1
    unfold maxInt64 at h2
    simp only [goAtoi, hv]
    rw [if_neg (by unfold maxInt64; omega), if_neg (by unfold minInt64; omega)]

theorem getResultSet_success_headers_witness :
    ∃ page, exampleJob.GetResultSet "prevLocator"
        ⟨200, "200 OK",
          [("Sforce-NumberOfRecords", "42"), ("Sforce-Locator", "tok123")],
          "a,b\n"⟩ = .ok page ∧
      page.Rows = 42 ∧ page.Next = "tok123" := by
  obtain ⟨page, h1, h2, h3, _, _⟩ :=
    getResultSet_success_headers exampleJob "prevLocator"
      ⟨200, "200 OK",
        [("Sforce-NumberOfRecords", "42"), ("Sforce-Locator", "tok123")],
        "a,b\n"⟩ (by decide)
  exact ⟨page, h1, by rw [h3]; decide, by rw [h2]; decide⟩

end Simpleforce
